import Mathlib

/-!
Verification of the weekday-occurrence counter and ordinal-formatting
utilities of the `september-coding-tasks` repository.

The embedding follows the Rust sources:
* `src/task_02.rs` — `WeekdaysCounter::count`, `count_sundays`, and the
  `chrono` calendar fragment it relies on (`NaiveDate::ordinal`,
  `NaiveDate::weekday`, `NaiveDate::parse_from_str` with format `%d-%m-%Y`).
  Dates are modelled as proleptic-Gregorian `(year, month, day)` triples with
  `year : Nat`, `year ≥ 1` (all behaviour relevant to the claims lives in
  years ≥ 1; chrono's wider year range changes nothing about the algorithms).
  Machine integers (`u32`, `i32`) are modelled as `Nat`/`Int`; every
  subtraction in the Rust source is guarded there exactly as it is here, so
  no wrap-around arithmetic arises.
* `src/task_01/simple.rs` — the unchecked `Ordinal` wrapper, its `Display`
  implementation and the `ordinal` helper (namespace `Simple`).
* `src/task_01/wrapped.rs` — the validated `Ordinal` wrapper with its
  `TryFrom` constructors (namespace `Wrapped`).
-/

namespace September

/-! ## Calendar model (the `chrono::NaiveDate` fragment used by the code) -/

/-- Gregorian leap-year rule. -/
def isLeapYear (y : Nat) : Bool := y % 4 == 0 && (y % 100 != 0 || y % 400 == 0)

/-- Length of month `m` (1-based) of year `y`. -/
def daysInMonth (y m : Nat) : Nat :=
  if m = 2 then (if isLeapYear y then 29 else 28)
  else if m = 4 ∨ m = 6 ∨ m = 9 ∨ m = 11 then 30
  else 31

/-- A calendar date, as `chrono::NaiveDate` presents it to the counter. -/
structure Date where
  year : Nat
  month : Nat
  day : Nat
deriving DecidableEq

/-- Number of days in the months of year `y` strictly before month `m`. -/
def daysBeforeMonth (y : Nat) : Nat → Nat
  | 0 => 0
  | 1 => 0
  | m + 2 => daysBeforeMonth y (m + 1) + daysInMonth y (m + 1)

/-- `NaiveDate::ordinal`: 1-based day-of-year. -/
def Date.ordinal (d : Date) : Nat := daysBeforeMonth d.year d.month + d.day

/-- Days from 0001-01-01 (a Monday in the proleptic Gregorian calendar) to
`y`-01-01. -/
def daysToYearStart (y : Nat) : Nat :=
  365 * (y - 1) + (y - 1) / 4 + (y - 1) / 400 - (y - 1) / 100

/-- `NaiveDate::weekday`, rendered as the ISO index Monday = 0 … Sunday = 6
(`Weekday::num_days_from_monday` of the chrono weekday). -/
def Date.weekday (d : Date) : Nat := (daysToYearStart d.year + d.ordinal - 1) % 7

/-- Validity of a `(year, month, day)` triple: exactly the triples
`chrono::NaiveDate` can hold (restricted to years ≥ 1, see the file header). -/
def Date.Valid (d : Date) : Prop :=
  1 ≤ d.year ∧ 1 ≤ d.month ∧ d.month ≤ 12 ∧ 1 ≤ d.day ∧ d.day ≤ daysInMonth d.year d.month

instance (d : Date) : Decidable d.Valid := by unfold Date.Valid; infer_instance

/-- `chrono::Weekday`. -/
inductive Weekday
  | mon | tue | wed | thu | fri | sat | sun
deriving DecidableEq

/-- `Weekday::num_days_from_monday`. -/
def Weekday.num_days_from_monday : Weekday → Nat
  | .mon => 0
  | .tue => 1
  | .wed => 2
  | .thu => 3
  | .fri => 4
  | .sat => 5
  | .sun => 6

/-- All seven weekday values. -/
def allWeekdays : List Weekday := [.mon, .tue, .wed, .thu, .fri, .sat, .sun]

/-! ## `WeekdaysCounter` (src/task_02.rs) -/

/-- The `WeekdaysCounter` struct. -/
structure WeekdaysCounter where
  start_date : Date
  end_date : Date

/-- `WeekdaysCounter::new`. -/
def WeekdaysCounter.new (start_date end_date : Date) : WeekdaysCounter :=
  ⟨start_date, end_date⟩

/-- The normalisation of `sign_start_diff` into `start_offset` performed by
`WeekdaysCounter::count`: `target - start` as `i32`, plus 7 if negative. -/
def startOffset (target startWd : Nat) : Int :=
  let sign_start_diff : Int := (target : Int) - (startWd : Int)
  if 0 ≤ sign_start_diff then sign_start_diff else 7 + sign_start_diff

/-- `WeekdaysCounter::count`.  `u32` quantities are `Nat`; the one `i32`
comparison and the offset arithmetic are `Int`, exactly as in the source. -/
def WeekdaysCounter.count (c : WeekdaysCounter) (day_of_week : Weekday) : Nat :=
  let year_day_from := c.start_date.ordinal
  let year_day_to := c.end_date.ordinal
  if year_day_to < year_day_from then 0
  else
    let num_days := year_day_to - year_day_from
    let start_offset := startOffset day_of_week.num_days_from_monday c.start_date.weekday
    if (num_days : Int) < start_offset then 0
    else (num_days - start_offset.toNat) / 7 + 1

/-! ## Closed-form versus enumeration: the arithmetic core -/

/-- The start offset as a single `Nat` modular expression. -/
def offNat (t σ : Nat) : Nat := (t + 7 - σ) % 7

/-- The counter's closed-form value, in `Nat` form, for start-weekday `σ`,
target `t` and day-span `n`. -/
def formulaCount (σ t n : Nat) : Nat :=
  if n < offNat t σ then 0 else (n - offNat t σ) / 7 + 1

/-- Day-by-day enumeration: how many of the offsets `0 … n` from the start
day land on weekday `t`, the start day having weekday `σ`. -/
def enumCount (σ t n : Nat) : Nat :=
  (List.range (n + 1)).countP (fun k => (σ + k) % 7 == t)

/-- The weekday of the day with day-of-year `o` in year `y` (the function of
which `Date.weekday` is the instance at `o = Date.ordinal`). -/
def weekdayOfOrdinal (y o : Nat) : Nat := (daysToYearStart y + o - 1) % 7

/-- Day-by-day enumeration over a same-year range, following the
specification's words: walk the day-of-year ordinals `o1, o1+1, …, o2` of
year `y` (each names exactly one calendar date of that year) and count those
whose weekday is `t`. -/
def countWeekdayByEnumeration (y o1 o2 t : Nat) : Nat :=
  ((List.range (o2 + 1 - o1)).map (fun k => o1 + k)).countP
    (fun o => weekdayOfOrdinal y o == t)

/-- Decidable equality of `Except` results, used to evaluate the parser and
the end-to-end entry point on concrete inputs. -/
instance {ε α : Type} [DecidableEq ε] [DecidableEq α] : DecidableEq (Except ε α) := fun a b =>
  match a, b with
  | .ok x, .ok y =>
    if h : x = y then isTrue (by rw [h]) else isFalse (by intro hc; cases hc; exact h rfl)
  | .ok _, .error _ => isFalse (by intro hc; cases hc)
  | .error _, .ok _ => isFalse (by intro hc; cases hc)
  | .error x, .error y =>
    if h : x = y then isTrue (by rw [h]) else isFalse (by intro hc; cases hc; exact h rfl)

/-! ## Date-string parsing (`NaiveDate::parse_from_str` with format `%d-%m-%Y`)
and `count_sundays` (src/task_02.rs) -/

/-- The kinds of `chrono::format::ParseError` the fixed format can produce. -/
inductive ParseError
  | invalid
  | tooShort
  | tooLong
  | outOfRange
deriving DecidableEq

/-- Greedily consume up to `w` further decimal digits, accumulating their
value onto `acc`. -/
def takeDigits : Nat → Nat → List Char → Nat × List Char
  | 0, acc, cs => (acc, cs)
  | _ + 1, acc, [] => (acc, [])
  | w + 1, acc, c :: cs =>
    if c.isDigit then takeDigits w (10 * acc + (c.toNat - 48)) cs else (acc, c :: cs)

/-- Parse a numeric field of at most `w` digits (at least one digit). -/
def parseNum (w : Nat) : List Char → Except ParseError (Nat × List Char)
  | [] => .error .tooShort
  | c :: cs =>
    if c.isDigit then .ok (takeDigits w 0 (c :: cs)) else .error .invalid

/-- Consume the literal character `ch`. -/
def expectChar (ch : Char) : List Char → Except ParseError (List Char)
  | [] => .error .tooShort
  | c :: cs => if c = ch then .ok cs else .error .invalid

/-- `NaiveDate::parse_from_str(s, "%d-%m-%Y")`: day (≤ 2 digits), `-`, month
(≤ 2 digits), `-`, year (≤ 4 digits), end of input; then the parsed fields
must form a real calendar date. -/
def parse_from_str (s : String) : Except ParseError Date := do
  let (d, r1) ← parseNum 2 s.toList
  let r2 ← expectChar '-' r1
  let (m, r3) ← parseNum 2 r2
  let r4 ← expectChar '-' r3
  let (y, r5) ← parseNum 4 r4
  if r5.isEmpty then
    if 1 ≤ y ∧ 1 ≤ m ∧ m ≤ 12 ∧ 1 ≤ d ∧ d ≤ daysInMonth y m then
      .ok ⟨y, m, d⟩
    else .error .outOfRange
  else .error .tooLong

/-- `count_sundays`: parse both boundary strings with the fixed format and
count Sundays in the inclusive range. -/
def count_sundays (p : String × String) : Except ParseError Nat := do
  let start_date ← parse_from_str p.1
  let end_date ← parse_from_str p.2
  return (WeekdaysCounter.new start_date end_date).count Weekday.sun

/-! ## The unchecked ordinal formatter (src/task_01/simple.rs) -/

namespace Simple

/-- Decimal digit characters of `n`, most significant first (Rust
`to_string` of a non-negative integer). -/
def natDigits (n : Nat) : List Char :=
  if _h : n < 10 then [Nat.digitChar n]
  else natDigits (n / 10) ++ [Nat.digitChar (n % 10)]
decreasing_by simp_wf; omega

/-- Rust `to_string` of a signed integer, as a character list. -/
def intDigits (v : Int) : List Char :=
  if v < 0 then '-' :: natDigits v.natAbs else natDigits v.natAbs

/-- `str::starts_with` on reversed lists, the work-horse of `ends_with`. -/
def revStartsWith : List Char → List Char → Bool
  | [], _ => true
  | _ :: _, [] => false
  | a :: as, b :: bs => a == b && revStartsWith as bs

/-- Rust `str::ends_with` for string-literal patterns. -/
def ends_with (pat s : List Char) : Bool := revStartsWith pat.reverse s.reverse

/-- The unchecked `Ordinal<T>` wrapper of src/task_01/simple.rs (public inner
value, no validation); instantiated at the integer type. -/
structure Ordinal where
  val : Int
deriving DecidableEq

/-- The `Display` implementation for `Simple.Ordinal`: render the inner value
and append the suffix chosen by the trailing digits of the rendering. -/
def Ordinal.fmt (o : Ordinal) : String :=
  let s := intDigits o.val
  let suffix :=
    if ends_with ['1'] s && !ends_with ['1', '1'] s then "st"
    else if ends_with ['2'] s && !ends_with ['1', '2'] s then "nd"
    else if ends_with ['3'] s && !ends_with ['1', '3'] s then "rd"
    else "th"
  String.mk s ++ suffix

/-- `IntoOrdinal::into_ordinal` (plain wrapping, never fails). -/
def into_ordinal (v : Int) : Ordinal := ⟨v⟩

/-- The `ordinal` helper: wrap and render. -/
def ordinal (v : Int) : String := (into_ordinal v).fmt

end Simple

/-- The suffix the claim predicts from the trailing decimal digits of the
absolute value: `st`/`nd`/`rd` for last digit 1/2/3 except after 11/12/13,
otherwise `th`. -/
def suffixFor (n : Nat) : String :=
  if n % 10 = 1 ∧ n % 100 ≠ 11 then "st"
  else if n % 10 = 2 ∧ n % 100 ≠ 12 then "nd"
  else if n % 10 = 3 ∧ n % 100 ≠ 13 then "rd"
  else "th"

/-! ## The validated ordinal wrapper (src/task_01/wrapped.rs) -/

namespace Wrapped

/-- The validated `Ordinal<T>` wrapper (private inner value in Rust; the only
public constructor is `try_from`). -/
structure Ordinal where
  val : Int
deriving DecidableEq

/-- `TryFrom::try_from` as generated by `impl_try_from_ordinal!` for each of
i8, i16, i32, i64, u8, u16, u32, u64 (all instances perform the same
comparison `value <= 0` on the inner value, modelled here on `Int`). -/
def Ordinal.try_from (v : Int) : Except String Ordinal :=
  if v ≤ 0 then .error "Ordinal inner value must be greater than zero"
  else .ok ⟨v⟩

end Wrapped

/-! ## Lemmas: the arithmetic core -/

lemma startOffset_eq (t σ : Nat) (hσ : σ < 7) (ht : t < 7) :
    startOffset t σ = (offNat t σ : Int) := by
  simp only [startOffset, offNat]
  split <;> omega

lemma startOffset_nonneg (t σ : Nat) (hσ : σ < 7) : 0 ≤ startOffset t σ := by
  simp only [startOffset]
  split <;> omega

lemma startOffset_le_six (t σ : Nat) (hσ : σ < 7) (ht : t < 7) :
    startOffset t σ ≤ 6 := by
  simp only [startOffset]
  split <;> omega

lemma enumCount_succ (σ t n : Nat) :
    enumCount σ t (n + 1)
      = enumCount σ t n + (if (σ + (n + 1)) % 7 = t then 1 else 0) := by
  unfold enumCount
  rw [List.range_succ, List.countP_append]
  simp [List.countP_cons]

lemma formulaCount_eq_enumCount (σ t : Nat) (hσ : σ < 7) (ht : t < 7) :
    ∀ n, formulaCount σ t n = enumCount σ t n := by
  intro n
  induction n with
  | zero =>
    simp only [formulaCount, enumCount, offNat, List.range_succ, List.range_zero,
      List.countP_append, List.countP_cons, List.countP_nil, List.nil_append, beq_iff_eq]
    split <;> split <;> omega
  | succ n ih =>
    rw [enumCount_succ, ← ih]
    unfold formulaCount offNat
    split <;> split <;> split <;> omega

lemma Date.weekday_lt_seven (d : Date) : d.weekday < 7 :=
  Nat.mod_lt _ (by norm_num)

lemma Weekday.num_days_from_monday_lt_seven (w : Weekday) :
    w.num_days_from_monday < 7 := by
  cases w <;> simp [Weekday.num_days_from_monday]

/-- The counter agrees with the `Nat`-level closed form whenever the range is
not reversed. -/
lemma count_eq_formulaCount (c : WeekdaysCounter) (w : Weekday)
    (h : c.start_date.ordinal ≤ c.end_date.ordinal) :
    c.count w
      = formulaCount c.start_date.weekday w.num_days_from_monday
          (c.end_date.ordinal - c.start_date.ordinal) := by
  have hσ := c.start_date.weekday_lt_seven
  have ht := w.num_days_from_monday_lt_seven
  simp only [WeekdaysCounter.count, formulaCount]
  rw [startOffset_eq _ _ hσ ht]
  have hoff : offNat w.num_days_from_monday c.start_date.weekday < 7 :=
    Nat.mod_lt _ (by norm_num)
  split
  · exfalso; omega
  · rw [Int.toNat_natCast]
    split <;> split <;> omega

lemma Date.weekday_eq_weekdayOfOrdinal (d : Date) :
    d.weekday = weekdayOfOrdinal d.year d.ordinal := rfl

lemma countWeekdayByEnumeration_eq_enumCount (y o1 o2 t : Nat)
    (h1 : 1 ≤ o1) (h : o1 ≤ o2) :
    countWeekdayByEnumeration y o1 o2 t
      = enumCount (weekdayOfOrdinal y o1) t (o2 - o1) := by
  unfold countWeekdayByEnumeration enumCount
  rw [List.countP_map, show o2 + 1 - o1 = (o2 - o1) + 1 by omega]
  congr 1
  funext k
  have : weekdayOfOrdinal y (o1 + k) = (weekdayOfOrdinal y o1 + k) % 7 := by
    unfold weekdayOfOrdinal
    omega
  simp [Function.comp, this]

/-- Summing the enumeration-equivalent counts over the seven weekday indices
gives the number of days walked. -/
lemma sum_enumCount (σ n : Nat) (hσ : σ < 7) :
    enumCount σ 0 n + enumCount σ 1 n + enumCount σ 2 n + enumCount σ 3 n
      + enumCount σ 4 n + enumCount σ 5 n + enumCount σ 6 n = n + 1 := by
  induction n with
  | zero =>
    have h : σ = 0 ∨ σ = 1 ∨ σ = 2 ∨ σ = 3 ∨ σ = 4 ∨ σ = 5 ∨ σ = 6 := by omega
    rcases h with h | h | h | h | h | h | h <;> subst h <;> decide
  | succ n ih =>
    simp only [enumCount_succ]
    have hm : (σ + (n + 1)) % 7 < 7 := Nat.mod_lt _ (by norm_num)
    have h : (σ + (n + 1)) % 7 = 0 ∨ (σ + (n + 1)) % 7 = 1 ∨ (σ + (n + 1)) % 7 = 2
        ∨ (σ + (n + 1)) % 7 = 3 ∨ (σ + (n + 1)) % 7 = 4 ∨ (σ + (n + 1)) % 7 = 5
        ∨ (σ + (n + 1)) % 7 = 6 := by omega
    rcases h with h | h | h | h | h | h | h <;> rw [h] <;> simp <;> omega

/-! ## Lemmas: the ordinal formatter -/

namespace Simple

lemma natDigits_ne_nil (n : Nat) : natDigits n ≠ [] := by
  rw [natDigits]
  split <;> simp

lemma natDigits_shape (n : Nat) :
    ∃ l, natDigits n = l ++ [Nat.digitChar (n % 10)]
      ∧ (¬ n < 10 → l = natDigits (n / 10)) ∧ (n < 10 → l = []) := by
  by_cases h : n < 10
  · exact ⟨[], by rw [natDigits]; simp [h, Nat.mod_eq_of_lt h], by omega, fun _ => rfl⟩
  · exact ⟨natDigits (n / 10), by rw [natDigits]; simp [h], fun _ => rfl, by omega⟩

lemma ends_with_nil_pat (c : Char) : ends_with [c] [] = false := by
  simp [ends_with, revStartsWith]

lemma ends_with_concat_one (c d : Char) (l : List Char) :
    ends_with [c] (l ++ [d]) = (c == d) := by
  simp [ends_with, List.reverse_append, revStartsWith]

lemma ends_with_concat_two (c1 c2 d : Char) (l : List Char) :
    ends_with [c1, c2] (l ++ [d]) = ((c2 == d) && ends_with [c1] l) := by
  simp [ends_with, List.reverse_append, revStartsWith]

lemma ends_with_one_cons (c x : Char) (l : List Char) (hl : l ≠ []) :
    ends_with [c] (x :: l) = ends_with [c] l := by
  obtain ⟨l2, d, rfl⟩ := (List.eq_nil_or_concat l).resolve_left hl
  simp only [List.concat_eq_append]
  rw [show x :: (l2 ++ [d]) = (x :: l2) ++ [d] from rfl, ends_with_concat_one,
    ends_with_concat_one]

lemma ends_with_two_cons_dash (c1 c2 : Char) (hc1 : (c1 == '-') = false) (n : Nat) :
    ends_with [c1, c2] ('-' :: natDigits n) = ends_with [c1, c2] (natDigits n) := by
  obtain ⟨l, hl, hge, hlt⟩ := natDigits_shape n
  rw [hl, show '-' :: (l ++ [Nat.digitChar (n % 10)])
        = ('-' :: l) ++ [Nat.digitChar (n % 10)] from rfl,
    ends_with_concat_two, ends_with_concat_two]
  by_cases h : n < 10
  · rw [hlt h]
    rw [show ('-' :: ([] : List Char)) = [] ++ ['-'] from rfl, ends_with_concat_one,
      ends_with_nil_pat, hc1]
  · have : l ≠ [] := by rw [hge h]; exact natDigits_ne_nil _
    rw [ends_with_one_cons _ _ _ this]

lemma digitChar_beq (a b : Nat) (ha : a < 10) (hb : b < 10) :
    (Nat.digitChar a == Nat.digitChar b) = (a == b) := by
  interval_cases a <;> interval_cases b <;> decide

lemma ends_with_digit_natDigits (n e : Nat) (c : Char) (he : e < 10)
    (hc : c = Nat.digitChar e) :
    ends_with [c] (natDigits n) = (n % 10 == e) := by
  subst hc
  obtain ⟨l, hl, _, _⟩ := natDigits_shape n
  rw [hl, ends_with_concat_one, digitChar_beq e (n % 10) he (Nat.mod_lt _ (by norm_num))]
  rcases eq_or_ne (n % 10) e with h2 | h2
  · rw [h2]
  · simp [h2, Ne.symm h2]

lemma ends_with_pair_natDigits (n d2 : Nat) (c : Char) (hd2 : d2 < 10)
    (hc : c = Nat.digitChar d2) :
    ends_with ['1', c] (natDigits n) = (n % 100 == 10 + d2) := by
  subst hc
  by_cases h : n < 10
  · rw [natDigits]
    simp only [h, dite_eq_ite, if_true, dif_pos]
    have h1 : ends_with ['1', Nat.digitChar d2] [Nat.digitChar n] = false := by
      simp [ends_with, revStartsWith]
    rw [h1]
    symm
    simp only [beq_eq_false_iff_ne, ne_eq]
    omega
  · conv_lhs => rw [natDigits]
    rw [dif_neg h, ends_with_concat_two,
      digitChar_beq d2 (n % 10) hd2 (Nat.mod_lt _ (by norm_num)),
      ends_with_digit_natDigits (n / 10) 1 '1' (by norm_num) (by decide)]
    rw [Bool.eq_iff_iff]
    simp only [Bool.and_eq_true, beq_iff_eq]
    omega

lemma ends_with_digit_intDigits (v : Int) (e : Nat) (c : Char) (he : e < 10)
    (hc : c = Nat.digitChar e) :
    ends_with [c] (intDigits v) = (v.natAbs % 10 == e) := by
  unfold intDigits
  split
  · rw [ends_with_one_cons _ _ _ (natDigits_ne_nil _),
      ends_with_digit_natDigits _ _ _ he hc]
  · rw [ends_with_digit_natDigits _ _ _ he hc]

lemma ends_with_pair_intDigits (v : Int) (d2 : Nat) (c : Char) (hd2 : d2 < 10)
    (hc : c = Nat.digitChar d2) :
    ends_with ['1', c] (intDigits v) = (v.natAbs % 100 == 10 + d2) := by
  unfold intDigits
  split
  · rw [ends_with_two_cons_dash '1' c (by decide) _,
      ends_with_pair_natDigits _ _ _ hd2 hc]
  · rw [ends_with_pair_natDigits _ _ _ hd2 hc]

/-- The rendered suffix is a pure function of the last two decimal digits of
the absolute value. -/
lemma ordinal_eq_suffixFor (v : Int) :
    ordinal v = String.mk (intDigits v) ++ suffixFor v.natAbs := by
  simp only [ordinal, into_ordinal, Ordinal.fmt, suffixFor]
  simp only [ends_with_digit_intDigits v 1 '1' (by norm_num) (by decide),
    ends_with_digit_intDigits v 2 '2' (by norm_num) (by decide),
    ends_with_digit_intDigits v 3 '3' (by norm_num) (by decide),
    ends_with_pair_intDigits v 1 '1' (by norm_num) (by decide),
    ends_with_pair_intDigits v 2 '2' (by norm_num) (by decide),
    ends_with_pair_intDigits v 3 '3' (by norm_num) (by decide),
    Bool.and_eq_true, Bool.not_eq_true', beq_iff_eq, beq_eq_false_iff_ne]

end Simple

/-! ## Claims -/

/-- C1: for dates `start` and `end` in the same calendar year with
`start.ordinal ≤ end.ordinal` and any target weekday, `WeekdaysCounter::count`
returns exactly what day-by-day enumeration of the inclusive range of
day-of-year ordinals returns: the closed-form modular arithmetic agrees with
walking every day of the range. -/
theorem c1_count_agrees_with_day_by_day_enumeration
    (start_date end_date : Date) (w : Weekday)
    (hv : start_date.Valid) (_hyear : start_date.year = end_date.year)
    (hord : start_date.ordinal ≤ end_date.ordinal) :
    (WeekdaysCounter.new start_date end_date).count w
      = countWeekdayByEnumeration start_date.year start_date.ordinal
          end_date.ordinal w.num_days_from_monday := by
  have h1 : 1 ≤ start_date.ordinal := by
    have hd := hv.2.2.2.1
    unfold Date.ordinal
    omega
  rw [countWeekdayByEnumeration_eq_enumCount _ _ _ _ h1 hord,
    ← Date.weekday_eq_weekdayOfOrdinal,
    ← formulaCount_eq_enumCount _ _ start_date.weekday_lt_seven
        w.num_days_from_monday_lt_seven]
  exact count_eq_formulaCount (WeekdaysCounter.new start_date end_date) w hord

theorem c1_count_agrees_with_day_by_day_enumeration_witness :
    (Date.mk 2021 5 1).Valid
    ∧ (Date.mk 2021 5 1).year = (Date.mk 2021 5 30).year
    ∧ (Date.mk 2021 5 1).ordinal ≤ (Date.mk 2021 5 30).ordinal
    ∧ (WeekdaysCounter.new (Date.mk 2021 5 1) (Date.mk 2021 5 30)).count Weekday.sun
        = countWeekdayByEnumeration (Date.mk 2021 5 1).year (Date.mk 2021 5 1).ordinal
            (Date.mk 2021 5 30).ordinal Weekday.sun.num_days_from_monday :=
  ⟨by decide, rfl, by decide,
    c1_count_agrees_with_day_by_day_enumeration (Date.mk 2021 5 1) (Date.mk 2021 5 30)
      Weekday.sun (by decide) rfl (by decide)⟩

/-- C2: whenever `end.ordinal < start.ordinal` — a genuinely reversed
same-year range or a range crossing a year boundary, where the ordinal of the
chronologically later date is smaller — `WeekdaysCounter::count` returns 0
for every target weekday. -/
theorem c2_reversed_ordinals_count_zero (start_date end_date : Date) (w : Weekday)
    (h : end_date.ordinal < start_date.ordinal) :
    (WeekdaysCounter.new start_date end_date).count w = 0 := by
  simp [WeekdaysCounter.count, WeekdaysCounter.new, h]

theorem c2_reversed_ordinals_count_zero_witness :
    (Date.mk 2022 1 5).ordinal < (Date.mk 2021 12 1).ordinal
    ∧ (WeekdaysCounter.new (Date.mk 2021 12 1) (Date.mk 2022 1 5)).count Weekday.sun = 0 :=
  ⟨by decide,
    c2_reversed_ordinals_count_zero (Date.mk 2021 12 1) (Date.mk 2022 1 5)
      Weekday.sun (by decide)⟩

/-- C3: for a same-year range, summing `WeekdaysCounter::count` over all
seven weekdays gives `num_days + 1` (with `num_days = end.ordinal -
start.ordinal`) when `start.ordinal ≤ end.ordinal` and 0 when the range is
reversed; and each individual count (a `Nat`, hence non-negative) is at most
`num_days + 1`. -/
theorem c3_counts_sum_to_range_length (start_date end_date : Date)
    (_hyear : start_date.year = end_date.year) :
    ((allWeekdays.map fun w => (WeekdaysCounter.new start_date end_date).count w).sum
        = if start_date.ordinal ≤ end_date.ordinal
          then end_date.ordinal - start_date.ordinal + 1 else 0)
    ∧ ∀ w : Weekday,
        (WeekdaysCounter.new start_date end_date).count w
          ≤ end_date.ordinal - start_date.ordinal + 1 := by
  have hσ7 := start_date.weekday_lt_seven
  constructor
  · by_cases hord : start_date.ordinal ≤ end_date.ordinal
    · rw [if_pos hord]
      simp only [allWeekdays, List.map_cons, List.map_nil, List.sum_cons, List.sum_nil]
      rw [count_eq_formulaCount _ .mon hord, count_eq_formulaCount _ .tue hord,
        count_eq_formulaCount _ .wed hord, count_eq_formulaCount _ .thu hord,
        count_eq_formulaCount _ .fri hord, count_eq_formulaCount _ .sat hord,
        count_eq_formulaCount _ .sun hord]
      simp only [WeekdaysCounter.new, Weekday.num_days_from_monday]
      rw [formulaCount_eq_enumCount _ 0 hσ7 (by norm_num) _,
        formulaCount_eq_enumCount _ 1 hσ7 (by norm_num) _,
        formulaCount_eq_enumCount _ 2 hσ7 (by norm_num) _,
        formulaCount_eq_enumCount _ 3 hσ7 (by norm_num) _,
        formulaCount_eq_enumCount _ 4 hσ7 (by norm_num) _,
        formulaCount_eq_enumCount _ 5 hσ7 (by norm_num) _,
        formulaCount_eq_enumCount _ 6 hσ7 (by norm_num) _]
      have hs := sum_enumCount start_date.weekday
        (end_date.ordinal - start_date.ordinal) hσ7
      omega
    · rw [if_neg hord]
      have h : end_date.ordinal < start_date.ordinal := by omega
      simp [allWeekdays, WeekdaysCounter.count, WeekdaysCounter.new, h]
  · intro w
    by_cases hord : start_date.ordinal ≤ end_date.ordinal
    · rw [count_eq_formulaCount _ w hord]
      simp only [WeekdaysCounter.new]
      unfold formulaCount offNat
      split <;> omega
    · have h : end_date.ordinal < start_date.ordinal := by omega
      simp [WeekdaysCounter.count, WeekdaysCounter.new, h]

theorem c3_counts_sum_to_range_length_witness :
    (Date.mk 2021 5 1).year = (Date.mk 2021 5 30).year
    ∧ (((allWeekdays.map fun w =>
          (WeekdaysCounter.new (Date.mk 2021 5 1) (Date.mk 2021 5 30)).count w).sum
        = if (Date.mk 2021 5 1).ordinal ≤ (Date.mk 2021 5 30).ordinal
          then (Date.mk 2021 5 30).ordinal - (Date.mk 2021 5 1).ordinal + 1 else 0)
      ∧ ∀ w : Weekday,
          (WeekdaysCounter.new (Date.mk 2021 5 1) (Date.mk 2021 5 30)).count w
            ≤ (Date.mk 2021 5 30).ordinal - (Date.mk 2021 5 1).ordinal + 1) :=
  ⟨rfl, c3_counts_sum_to_range_length (Date.mk 2021 5 1) (Date.mk 2021 5 30) rfl⟩

/-- C4: on the single-day range `(d, d)`, `WeekdaysCounter::count` returns 1
for the target weekday equal to `d`'s weekday and 0 for every other target. -/
theorem c4_single_day_range (d : Date) (w : Weekday) :
    (WeekdaysCounter.new d d).count w
      = if d.weekday = w.num_days_from_monday then 1 else 0 := by
  have hσ := d.weekday_lt_seven
  have ht := w.num_days_from_monday_lt_seven
  rw [count_eq_formulaCount (WeekdaysCounter.new d d) w (le_refl _)]
  simp only [WeekdaysCounter.new]
  rw [Nat.sub_self]
  unfold formulaCount offNat
  split <;> split <;> omega

/-- C5: a same-year range spanning exactly one week (`end.ordinal -
start.ordinal = 6`) contains every weekday exactly once, so
`WeekdaysCounter::count` returns 1 for every target weekday. -/
theorem c5_exact_week_counts_one (start_date end_date : Date) (w : Weekday)
    (_hyear : start_date.year = end_date.year)
    (hord : start_date.ordinal ≤ end_date.ordinal)
    (hspan : end_date.ordinal - start_date.ordinal = 6) :
    (WeekdaysCounter.new start_date end_date).count w = 1 := by
  have hσ := start_date.weekday_lt_seven
  have ht := w.num_days_from_monday_lt_seven
  rw [count_eq_formulaCount (WeekdaysCounter.new start_date end_date) w hord]
  simp only [WeekdaysCounter.new]
  rw [hspan]
  unfold formulaCount offNat
  split <;> omega

theorem c5_exact_week_counts_one_witness :
    (Date.mk 2021 5 1).year = (Date.mk 2021 5 7).year
    ∧ (Date.mk 2021 5 1).ordinal ≤ (Date.mk 2021 5 7).ordinal
    ∧ (Date.mk 2021 5 7).ordinal - (Date.mk 2021 5 1).ordinal = 6
    ∧ (WeekdaysCounter.new (Date.mk 2021 5 1) (Date.mk 2021 5 7)).count Weekday.mon = 1 :=
  ⟨rfl, by decide, by decide,
    c5_exact_week_counts_one (Date.mk 2021 5 1) (Date.mk 2021 5 7) Weekday.mon
      rfl (by decide) (by decide)⟩

/-- C6: the counter is total: for every pair of dates and every target
weekday the normalised `start_offset` lies in `[0, 6]`, and the `u32`
subtraction `num_days - start_offset` of the final formula, executed only
when the guard `(num_days as i32) < start_offset` fails, agrees with exact
integer subtraction — it cannot underflow. -/
theorem c6_offset_in_range_subtraction_guarded
    (start_date end_date : Date) (w : Weekday) :
    (0 ≤ startOffset w.num_days_from_monday start_date.weekday
      ∧ startOffset w.num_days_from_monday start_date.weekday ≤ 6)
    ∧ (¬ ((end_date.ordinal - start_date.ordinal : Nat) : Int)
          < startOffset w.num_days_from_monday start_date.weekday →
        ((end_date.ordinal - start_date.ordinal : Nat) : Int)
            - startOffset w.num_days_from_monday start_date.weekday
          = ((end_date.ordinal - start_date.ordinal
              - (startOffset w.num_days_from_monday start_date.weekday).toNat : Nat) : Int)) := by
  have hσ := start_date.weekday_lt_seven
  have ht := w.num_days_from_monday_lt_seven
  have h0 := startOffset_nonneg w.num_days_from_monday start_date.weekday hσ
  have h6 := startOffset_le_six w.num_days_from_monday start_date.weekday hσ ht
  exact ⟨⟨h0, h6⟩, fun hnl => by omega⟩

theorem c6_offset_in_range_subtraction_guarded_witness :
    ¬ (((Date.mk 2021 5 30).ordinal - (Date.mk 2021 5 1).ordinal : Nat) : Int)
        < startOffset Weekday.sun.num_days_from_monday (Date.mk 2021 5 1).weekday
    ∧ (((Date.mk 2021 5 30).ordinal - (Date.mk 2021 5 1).ordinal : Nat) : Int)
          - startOffset Weekday.sun.num_days_from_monday (Date.mk 2021 5 1).weekday
        = (((Date.mk 2021 5 30).ordinal - (Date.mk 2021 5 1).ordinal
            - (startOffset Weekday.sun.num_days_from_monday
                  (Date.mk 2021 5 1).weekday).toNat : Nat) : Int) :=
  ⟨by decide,
    (c6_offset_in_range_subtraction_guarded (Date.mk 2021 5 1) (Date.mk 2021 5 30)
        Weekday.sun).2 (by decide)⟩

/-- C7: `count_sundays` fails exactly when a boundary string fails to parse
under the fixed `%d-%m-%Y` format, propagating the first parse error
unchanged; when both boundaries parse it returns `Ok` of the (non-negative)
count.  In particular the ISO-ordered string `"2021-05-01"` is rejected. -/
theorem c7_parse_errors_propagated :
    (∀ s1 s2 : String, ∀ e : ParseError,
        parse_from_str s1 = .error e → count_sundays (s1, s2) = .error e)
    ∧ (∀ s1 s2 : String, ∀ d1 : Date, ∀ e : ParseError,
        parse_from_str s1 = .ok d1 → parse_from_str s2 = .error e →
          count_sundays (s1, s2) = .error e)
    ∧ (∀ s1 s2 : String, ∀ d1 d2 : Date,
        parse_from_str s1 = .ok d1 → parse_from_str s2 = .ok d2 →
          count_sundays (s1, s2)
            = .ok ((WeekdaysCounter.new d1 d2).count Weekday.sun))
    ∧ count_sundays ("2021-05-01", "30-05-2021") = .error .invalid := by
  refine ⟨?_, ?_, ?_, by decide⟩
  · intro s1 s2 e h1
    simp [count_sundays, h1, Bind.bind, Except.bind]
  · intro s1 s2 d1 e h1 h2
    simp [count_sundays, h1, h2, Bind.bind, Except.bind]
  · intro s1 s2 d1 d2 h1 h2
    simp [count_sundays, h1, h2, Bind.bind, Except.bind, Pure.pure, Except.pure]

theorem c7_parse_errors_propagated_witness :
    parse_from_str "2021-05-01" = .error .invalid
    ∧ count_sundays ("2021-05-01", "30-05-2021") = .error .invalid :=
  ⟨by decide,
    c7_parse_errors_propagated.1 "2021-05-01" "30-05-2021" ParseError.invalid (by decide)⟩

/-- C8: the end-to-end entry point on `("01-05-2021", "30-05-2021")` with
target Sunday returns `Ok(5)`. -/
theorem c8_five_sundays_in_may_2021 :
    count_sundays ("01-05-2021", "30-05-2021") = .ok 5 := by decide

/-- C9: the validated constructor `Ordinal::try_from` returns
`Ok(Ordinal(v))` exactly for `v ≥ 1` and an error for `v ≤ 0`; consequently
every `Ordinal` obtainable through `try_from` — the type's only public
constructor — holds an inner value ≥ 1 (the value being immutable, the
invariant holds for its lifetime). -/
theorem c9_try_from_positive_invariant (v : Int) :
    (1 ≤ v → Wrapped.Ordinal.try_from v = .ok ⟨v⟩)
    ∧ (v ≤ 0 → Wrapped.Ordinal.try_from v
        = .error "Ordinal inner value must be greater than zero")
    ∧ (∀ o : Wrapped.Ordinal, Wrapped.Ordinal.try_from v = .ok o →
        1 ≤ o.val ∧ o.val = v) := by
  unfold Wrapped.Ordinal.try_from
  refine ⟨fun h1 => ?_, fun h2 => ?_, fun o ho => ?_⟩
  · rw [if_neg (by omega)]
  · rw [if_pos h2]
  · by_cases h : v ≤ 0
    · rw [if_pos h] at ho
      cases ho
    · rw [if_neg h] at ho
      cases ho
      constructor
      · simpa using by omega
      · rfl

theorem c9_try_from_positive_invariant_witness :
    ((1 : Int) ≤ 1 ∧ Wrapped.Ordinal.try_from 1 = .ok ⟨1⟩)
    ∧ ((0 : Int) ≤ 0 ∧ Wrapped.Ordinal.try_from 0
        = .error "Ordinal inner value must be greater than zero") :=
  ⟨⟨by norm_num, (c9_try_from_positive_invariant 1).1 (by norm_num)⟩,
    ⟨by norm_num, (c9_try_from_positive_invariant 0).2.1 (by norm_num)⟩⟩

/-- C10: the unchecked formatter produces the decimal rendering of the input
followed by the suffix determined by the trailing decimal digits of its
absolute value (`st`/`nd`/`rd` for last digit 1/2/3 except after 11/12/13,
otherwise `th`); in particular `ordinal 0 = "0th"` and `ordinal (-1) =
"-1st"` — negatives receive the suffix of their absolute value. -/
theorem c10_ordinal_rendering_and_suffix :
    (∀ v : Int, Simple.ordinal v = String.mk (Simple.intDigits v) ++ suffixFor v.natAbs)
    ∧ Simple.ordinal 0 = "0th" ∧ Simple.ordinal (-1) = "-1st" := by
  refine ⟨fun v => Simple.ordinal_eq_suffixFor v, ?_, ?_⟩ <;>
    · simp [Simple.ordinal, Simple.Ordinal.fmt, Simple.into_ordinal, Simple.intDigits,
        Simple.natDigits, Simple.ends_with, Simple.revStartsWith]
      decide

end September
